import Mathlib

/-!
Verification of the `ObjectContainer` class from `src/ObjectContainer.ts`,
a generic string-keyed container with optional lowercasing of keys and of
string values.

Modelling choices (shallow embedding of the TypeScript source):
* JavaScript runtime values are the inductive `JsValue` below
  (`undefined`, `null`, strings, integer numbers, booleans); `===` is
  modelled by decidable equality on that type.
* A JavaScript plain object is an association list `List (String × JsValue)`
  in property-insertion order: reading a missing property yields
  `JsValue.undefined`, assignment updates an existing property in place or
  appends a new one, and `delete` removes the property.  These are `objGet`,
  `objSet` and `objDelete`.
* `String.prototype.toLowerCase` is modelled on the ASCII range (the range
  exercised by the library): code points 65–90 map to 97–122 and every
  other character is unchanged.
* Each mutating method of the class becomes a function from the container
  state to the new container state (the source mutates `this` and returns
  `this`, so a method that "returns the container" returns the new state).
-/

namespace ObjContainer

/-- A JavaScript runtime value, as far as the container manipulates them:
`undefined`, `null`, strings, (integer) numbers and booleans. -/
inductive JsValue where
  | undefined : JsValue
  | null : JsValue
  | str : String → JsValue
  | num : Int → JsValue
  | bool : Bool → JsValue
deriving DecidableEq

/-- ASCII lowercasing of one character: `A`–`Z` (codes 65–90) shift to
`a`–`z` (codes 97–122); everything else is unchanged.  Models what
`String.prototype.toLowerCase` does on the characters involved here. -/
def lcChar (c : Char) : Char :=
  if 65 ≤ c.toNat ∧ c.toNat ≤ 90 then Char.ofNat (c.toNat + 32) else c

/-- `s.toLowerCase()`: lowercase every character of the string. -/
def toLowerCase (s : String) : String :=
  ⟨s.data.map lcChar⟩

/-- `typeof value === 'string'`. -/
def isStr : JsValue → Bool
  | .str _ => true
  | _ => false

/-- Lowercase a string value, leave any other value unchanged
(the `typeof value === 'string' ? value.toLowerCase() : value` expression). -/
def lowerStr : JsValue → JsValue
  | .str s => .str (toLowerCase s)
  | v => v

/-- The `a ?? b` (nullish coalescing) operator: `b` when `a` is
`null` or `undefined`, else `a`. -/
def nullish (a b : JsValue) : JsValue :=
  match a with
  | .undefined => b
  | .null => b
  | v => v

/-- A JavaScript plain object as an association list in property-insertion
order. -/
abbrev JsObj := List (String × JsValue)

/-- Property read `o[k]`: the stored value, or `undefined` when the
property is missing. -/
def objGet : JsObj → String → JsValue
  | [], _ => .undefined
  | p :: rest, k => if p.1 = k then p.2 else objGet rest k

/-- Property write `o[k] = v`: overwrite in place when the property exists,
otherwise append it. -/
def objSet : JsObj → String → JsValue → JsObj
  | [], k, v => [(k, v)]
  | p :: rest, k, v => if p.1 = k then (k, v) :: rest else p :: objSet rest k v

/-- `delete o[k]`: remove the property when present. -/
def objDelete : JsObj → String → JsObj
  | [], _ => []
  | p :: rest, k => if p.1 = k then rest else p :: objDelete rest k

/-- The `ObjectContainerConfiguration` type of the source: two boolean
flags. -/
structure ObjectContainerConfiguration where
  convertAllKeysToLowerCase : Bool
  convertAllValuesToLowerCase : Bool
deriving DecidableEq

/-- The state of an `ObjectContainer`: its `data` object and its `config`. -/
structure ObjectContainer where
  data : JsObj
  config : ObjectContainerConfiguration
deriving DecidableEq

/-- `convertKey`: lowercase the key when `convertAllKeysToLowerCase` is
set, else return it unchanged. -/
def convertKey (c : ObjectContainer) (key : String) : String :=
  if c.config.convertAllKeysToLowerCase then toLowerCase key else key

/-- `convertValue`: when `convertAllValuesToLowerCase` is set and the value
is not `undefined`, lowercase it if it is a string; otherwise return the
value unchanged. -/
def convertValue (c : ObjectContainer) (value : JsValue) : JsValue :=
  if c.config.convertAllValuesToLowerCase && value != .undefined then
    (if isStr value then lowerStr value else value)
  else value

/-- The body of the `for (let dataKey in this.data)` loop of `prepareData`:
lowercase the value when it is a string and value-lowercasing is on, and
lowercase the key when key-lowercasing is on. -/
def prepareEntry (cfg : ObjectContainerConfiguration) (p : String × JsValue) :
    String × JsValue :=
  let value := if cfg.convertAllValuesToLowerCase && isStr p.2 then lowerStr p.2 else p.2
  let key := if cfg.convertAllKeysToLowerCase then toLowerCase p.1 else p.1
  (key, value)

/-- `prepareData`: when either flag is set, rebuild `data` from an empty
object by writing each (prepared) entry in iteration order. -/
def prepareData (c : ObjectContainer) : ObjectContainer :=
  if !c.config.convertAllValuesToLowerCase && !c.config.convertAllKeysToLowerCase then c
  else
    { c with
      data := c.data.foldl
        (fun d p => objSet d (prepareEntry c.config p).1 (prepareEntry c.config p).2) [] }

/-- `this.data = data ?? {}` in the constructor. -/
def defaultData : Option JsObj → JsObj
  | some d => d
  | none => []

/-- The config produced by the constructor: both flags start `false`, and if
a configuration was supplied, each flag is copied only when it is truthy
(the `if (configuration) { if (configuration.flag) ... }` block). -/
def normalizeConfig : Option ObjectContainerConfiguration → ObjectContainerConfiguration
  | none => { convertAllKeysToLowerCase := false, convertAllValuesToLowerCase := false }
  | some conf =>
    { convertAllKeysToLowerCase :=
        if conf.convertAllKeysToLowerCase then conf.convertAllKeysToLowerCase else false
      convertAllValuesToLowerCase :=
        if conf.convertAllValuesToLowerCase then conf.convertAllValuesToLowerCase else false }

/-- The constructor `new ObjectContainer(data?, configuration?)`:
`data ?? {}`, the config-copy block, then `prepareData`. -/
def mkObjectContainer (data : Option JsObj)
    (configuration : Option ObjectContainerConfiguration) : ObjectContainer :=
  prepareData { data := defaultData data, config := normalizeConfig configuration }

/-- The two-parameter overload body of `has`: convert key and value; when
the converted value is not `undefined`, test presence and strict equality
with the stored value; otherwise test that the stored value is not
`undefined`. -/
def hasValue (c : ObjectContainer) (key : String) (value : JsValue) : Bool :=
  let key := convertKey c key
  let value := convertValue c value
  if value != .undefined then
    if objGet c.data key == .undefined then false
    else objGet c.data key == value
  else
    objGet c.data key != .undefined

/-- `has(key)`: the one-parameter call, i.e. the overload body with
`value` left `undefined`. -/
def has (c : ObjectContainer) (key : String) : Bool :=
  hasValue c key .undefined

/-- `get(key, _default = null)`: `this.data[convertKey(key)] ?? _default`. -/
def get (c : ObjectContainer) (key : String) (dflt : JsValue) : JsValue :=
  let key := convertKey c key
  nullish (objGet c.data key) dflt

/-- `get(key)` with the default defaulted to `null`. -/
def getDefault (c : ObjectContainer) (key : String) : JsValue :=
  get c key .null

/-- `put(key, value)`: store the converted value under the converted key
and return the container. -/
def put (c : ObjectContainer) (key : String) (value : JsValue) : ObjectContainer :=
  let key := convertKey c key
  let value := convertValue c value
  { c with data := objSet c.data key value }

/-- `putIfNotExists(key, value)`: `false` and no change when `has(key)`;
otherwise convert key and value, call `put` (which converts again, as in
the source) and return `true`.  The pair is (returned boolean, new state). -/
def putIfNotExists (c : ObjectContainer) (key : String) (value : JsValue) :
    Bool × ObjectContainer :=
  if has c key then (false, c)
  else
    let key := convertKey c key
    let value := convertValue c value
    (true, put c key value)

/-- `forget(key)`: no-op when `has(key)` is false, else delete the
converted key; returns the container. -/
def forget (c : ObjectContainer) (key : String) : ObjectContainer :=
  if !has c key then c
  else { c with data := objDelete c.data (convertKey c key) }

/-- `remove(key)`: just calls `forget`. -/
def remove (c : ObjectContainer) (key : String) : ObjectContainer :=
  forget c key

/-- `clear()`: `this.data = {}`. -/
def clear (c : ObjectContainer) : ObjectContainer :=
  { c with data := [] }

/-- `items()`: the underlying data object. -/
def items (c : ObjectContainer) : JsObj :=
  c.data

/-- `all()`: same as `items`. -/
def allItems (c : ObjectContainer) : JsObj :=
  items c

/-- `keys()`: `Object.keys(this.data)` in property order. -/
def keys (c : ObjectContainer) : List String :=
  c.data.map Prod.fst

/-- `values()`: `Object.values(this.data)` in property order. -/
def objValues (c : ObjectContainer) : List JsValue :=
  c.data.map Prod.snd

/-- `empty()`: `!this.keys()?.length`, i.e. the key count is zero. -/
def empty (c : ObjectContainer) : Bool :=
  (keys c).length == 0

/-- `populate(values)`: rebuild `data` from an empty object by writing each
entry of `values` verbatim (no key or value conversion in the source). -/
def populate (c : ObjectContainer) (values : JsObj) : ObjectContainer :=
  { c with data := values.foldl (fun d p => objSet d p.1 p.2) [] }

end ObjContainer

namespace ObjContainer

/-! ### Basic lemmas about lowercasing -/

theorem ofNat_toNat_small (n : Nat) (h1 : 97 ≤ n) (h2 : n ≤ 122) :
    (Char.ofNat n).toNat = n := by
  interval_cases n <;> rfl

theorem lcChar_idem (c : Char) : lcChar (lcChar c) = lcChar c := by
  unfold lcChar
  by_cases h : 65 ≤ c.toNat ∧ c.toNat ≤ 90
  · rw [if_pos h]
    have ht : (Char.ofNat (c.toNat + 32)).toNat = c.toNat + 32 :=
      ofNat_toNat_small _ (by omega) (by omega)
    have hno : ¬(65 ≤ (Char.ofNat (c.toNat + 32)).toNat ∧
        (Char.ofNat (c.toNat + 32)).toNat ≤ 90) := by
      rw [ht]; omega
    rw [if_neg hno]
  · rw [if_neg h, if_neg h]

theorem toLowerCase_idem (s : String) : toLowerCase (toLowerCase s) = toLowerCase s := by
  unfold toLowerCase
  apply congrArg
  rw [List.map_map]
  exact List.map_congr_left (fun c _ => lcChar_idem c)

theorem convertKey_idem (c : ObjectContainer) (k : String) :
    convertKey c (convertKey c k) = convertKey c k := by
  unfold convertKey
  by_cases h : c.config.convertAllKeysToLowerCase = true
  · simp [h, toLowerCase_idem]
  · simp [h]

theorem convertKey_toLowerCase (c : ObjectContainer) (k : String)
    (h : c.config.convertAllKeysToLowerCase = true) :
    toLowerCase (convertKey c k) = convertKey c k := by
  simp [convertKey, h, toLowerCase_idem]

theorem convertValue_undefined (c : ObjectContainer) : convertValue c .undefined = .undefined := by
  simp [convertValue]

theorem convertValue_idem (c : ObjectContainer) (v : JsValue) :
    convertValue c (convertValue c v) = convertValue c v := by
  by_cases h : c.config.convertAllValuesToLowerCase = true
  · cases v <;> simp [convertValue, h, isStr, lowerStr, toLowerCase_idem]
  · simp [convertValue, h]

theorem convertValue_ne_undefined (c : ObjectContainer) (v : JsValue) (h : v ≠ .undefined) :
    convertValue c v ≠ .undefined := by
  by_cases hf : c.config.convertAllValuesToLowerCase = true
  · cases v <;> simp_all [convertValue, hf, isStr, lowerStr]
  · cases v <;> simp_all [convertValue, hf]

/-! ### Lemmas about the object model -/

theorem objGet_objSet_self (d : JsObj) (k : String) (v : JsValue) :
    objGet (objSet d k v) k = v := by
  induction d with
  | nil => simp [objSet, objGet]
  | cons p rest ih =>
    by_cases h : p.1 = k
    · simp [objSet, objGet, h]
    · simp [objSet, objGet, h, ih]

theorem objSet_eq_append (d : JsObj) (k : String) (v : JsValue)
    (h : ∀ q ∈ d, q.1 ≠ k) : objSet d k v = d ++ [(k, v)] := by
  induction d with
  | nil => rfl
  | cons q rest ih =>
    have hq : q.1 ≠ k := h q (by simp)
    simp [objSet, hq, ih (fun r hr => h r (by simp [hr]))]

theorem foldl_objSet_eq_append :
    ∀ (l acc : JsObj), (∀ p ∈ l, ∀ q ∈ acc, q.1 ≠ p.1) →
      (l.map Prod.fst).Nodup →
      l.foldl (fun d p => objSet d p.1 p.2) acc = acc ++ l := by
  intro l
  induction l with
  | nil => intro acc _ _; simp
  | cons p rest ih =>
    intro acc hdisj hnd
    rw [List.map_cons, List.nodup_cons] at hnd
    have h1 : ∀ q ∈ acc, q.1 ≠ p.1 := hdisj p (by simp)
    have step : List.foldl (fun d p => objSet d p.1 p.2) acc (p :: rest) =
        List.foldl (fun d p => objSet d p.1 p.2) (acc ++ [p]) rest := by
      rw [List.foldl_cons, objSet_eq_append acc p.1 p.2 h1]
    rw [step, ih (acc ++ [p]) ?_ hnd.2]
    · simp
    · intro r hr q hq
      rcases List.mem_append.1 hq with hql | hqr
      · exact hdisj r (by simp [hr]) q hql
      · have hqp : q = p := by simpa using hqr
        subst hqp
        intro he
        exact hnd.1 (he ▸ List.mem_map_of_mem Prod.fst hr)

/-! ### The lowercase-keys invariant -/

/-- Every key present in the data object is already lowercase. -/
def KeysLC (d : JsObj) : Prop := ∀ p ∈ d, toLowerCase p.1 = p.1

theorem KeysLC_nil : KeysLC [] := by
  intro p hp; cases hp

theorem KeysLC_objSet (d : JsObj) (k : String) (v : JsValue)
    (hd : KeysLC d) (hk : toLowerCase k = k) : KeysLC (objSet d k v) := by
  induction d with
  | nil =>
    intro p hp
    simp only [objSet, List.mem_singleton] at hp
    subst hp; exact hk
  | cons q rest ih =>
    intro p hp
    by_cases h : q.1 = k
    · simp only [objSet, if_pos h] at hp
      rcases List.mem_cons.1 hp with hp | hp
      · subst hp; exact hk
      · exact hd p (List.mem_cons_of_mem q hp)
    · simp only [objSet, if_neg h] at hp
      rcases List.mem_cons.1 hp with hp | hp
      · subst hp; exact hd p (List.mem_cons_self p rest)
      · exact ih (fun r hr => hd r (List.mem_cons_of_mem q hr)) p hp

theorem KeysLC_objDelete (d : JsObj) (k : String) (hd : KeysLC d) :
    KeysLC (objDelete d k) := by
  induction d with
  | nil => intro p hp; cases hp
  | cons q rest ih =>
    intro p hp
    by_cases h : q.1 = k
    · simp only [objDelete, if_pos h] at hp
      exact hd p (List.mem_cons_of_mem q hp)
    · simp only [objDelete, if_neg h] at hp
      rcases List.mem_cons.1 hp with hp | hp
      · subst hp; exact hd p (List.mem_cons_self p rest)
      · exact ih (fun r hr => hd r (List.mem_cons_of_mem q hr)) p hp

theorem KeysLC_foldl (g : String × JsValue → String × JsValue)
    (hg : ∀ p, toLowerCase (g p).1 = (g p).1) :
    ∀ (l acc : JsObj), KeysLC acc →
      KeysLC (l.foldl (fun d p => objSet d (g p).1 (g p).2) acc) := by
  intro l
  induction l with
  | nil => intro acc hacc; exact hacc
  | cons p rest ih =>
    intro acc hacc
    exact ih _ (KeysLC_objSet _ _ _ hacc (hg p))

theorem prepareEntry_key_lc (cfg : ObjectContainerConfiguration)
    (h : cfg.convertAllKeysToLowerCase = true) (p : String × JsValue) :
    toLowerCase (prepareEntry cfg p).1 = (prepareEntry cfg p).1 := by
  simp [prepareEntry, h, toLowerCase_idem]

theorem KeysLC_prepareData (c : ObjectContainer)
    (h : c.config.convertAllKeysToLowerCase = true) : KeysLC (prepareData c).data := by
  unfold prepareData
  simp only [h, Bool.not_true, Bool.and_false, Bool.false_eq_true, if_false]
  exact KeysLC_foldl _ (prepareEntry_key_lc _ h) _ _ KeysLC_nil

/-! ### Config preservation -/

theorem put_config (c : ObjectContainer) (k : String) (v : JsValue) :
    (put c k v).config = c.config := rfl

theorem putIfNotExists_config (c : ObjectContainer) (k : String) (v : JsValue) :
    (putIfNotExists c k v).2.config = c.config := by
  unfold putIfNotExists
  split <;> rfl

theorem forget_config (c : ObjectContainer) (k : String) :
    (forget c k).config = c.config := by
  unfold forget
  split <;> rfl

theorem clear_config (c : ObjectContainer) : (clear c).config = c.config := rfl

theorem populate_config (c : ObjectContainer) (m : JsObj) :
    (populate c m).config = c.config := rfl

/-! ### has / get characterizations -/

theorem has_eq_false_iff (c : ObjectContainer) (k : String) :
    has c k = false ↔ objGet c.data (convertKey c k) = .undefined := by
  unfold has hasValue
  simp [convertValue_undefined]

theorem has_eq_true_iff (c : ObjectContainer) (k : String) :
    has c k = true ↔ objGet c.data (convertKey c k) ≠ .undefined := by
  unfold has hasValue
  simp [convertValue_undefined]

theorem put_data (c : ObjectContainer) (k : String) (v : JsValue) :
    (put c k v).data = objSet c.data (convertKey c k) (convertValue c v) := rfl

theorem convertKey_put (c : ObjectContainer) (k : String) (v : JsValue) (k' : String) :
    convertKey (put c k v) k' = convertKey c k' := rfl

theorem get_put_self (c : ObjectContainer) (k : String) (v : JsValue) (dflt : JsValue) :
    get (put c k v) k dflt =
      nullish (objGet (objSet c.data (convertKey c k) (convertValue c v)) (convertKey c k))
        dflt := rfl

theorem put_convert_twice (c : ObjectContainer) (k : String) (v : JsValue) :
    put c (convertKey c k) (convertValue c v) = put c k v := by
  unfold put
  rw [convertKey_idem, convertValue_idem]

theorem nullish_of_ne_undefined (v : JsValue) (h : v ≠ .undefined) :
    nullish v .null = v := by
  cases v <;> simp_all [nullish]

instance (d : JsObj) : Decidable (KeysLC d) :=
  inferInstanceAs (Decidable (∀ p ∈ d, toLowerCase p.1 = p.1))

/-! ### Claim theorems -/

/-- C3: in a container with `lowercaseValues=true`, after `put(key, v)` with a
string value `v`, `get(key)` returns `v.toLowerCase()`. -/
theorem C3_lowercaseValues_put_get (c : ObjectContainer) (k v : String)
    (h : c.config.convertAllValuesToLowerCase = true) :
    getDefault (put c k (.str v)) k = .str (toLowerCase v) := by
  unfold getDefault
  rw [get_put_self, objGet_objSet_self]
  simp [convertValue, h, isStr, lowerStr, nullish]

theorem C3_witness :
    (mkObjectContainer none
      (some { convertAllKeysToLowerCase := false,
              convertAllValuesToLowerCase := true })).config.convertAllValuesToLowerCase
      = true ∧
    getDefault
      (put (mkObjectContainer none
        (some { convertAllKeysToLowerCase := false, convertAllValuesToLowerCase := true }))
        ("x") (.str ("HELLO"))) ("x") = .str (toLowerCase ("HELLO")) :=
  ⟨by decide, C3_lowercaseValues_put_get _ ("x") ("HELLO") (by decide)⟩

/-- C4: in a container with `lowercaseKeys=true`, `has(k)` agrees with
`has(k.toLowerCase())`, both query keys normalize to the same stored key, and
`get` on either key reads the same entry, for every default. -/
theorem C4_key_case_insensitive (c : ObjectContainer) (k : String)
    (h : c.config.convertAllKeysToLowerCase = true) :
    has c k = has c (toLowerCase k) ∧
    convertKey c k = convertKey c (toLowerCase k) ∧
    (∀ d : JsValue, get c k d = get c (toLowerCase k) d) := by
  have hk : convertKey c (toLowerCase k) = convertKey c k := by
    simp [convertKey, h, toLowerCase_idem]
  refine ⟨?_, hk.symm, ?_⟩
  · unfold has hasValue
    rw [hk]
  · intro d
    unfold get
    rw [hk]

theorem C4_witness :
    (mkObjectContainer none
      (some { convertAllKeysToLowerCase := true,
              convertAllValuesToLowerCase := false })).config.convertAllKeysToLowerCase
      = true ∧
    (has
        (mkObjectContainer (some [(("foo"), .str ("Bar"))])
          (some { convertAllKeysToLowerCase := true, convertAllValuesToLowerCase := false }))
        ("FoO") =
      has
        (mkObjectContainer (some [(("foo"), .str ("Bar"))])
          (some { convertAllKeysToLowerCase := true, convertAllValuesToLowerCase := false }))
        (toLowerCase ("FoO"))) :=
  ⟨by decide,
    (C4_key_case_insensitive
      (mkObjectContainer (some [(("foo"), .str ("Bar"))])
        (some { convertAllKeysToLowerCase := true, convertAllValuesToLowerCase := false }))
      ("FoO") (by decide)).1⟩

/-- C6: `forget` on an absent key returns the container unchanged (the model
is total, so no error can be raised). -/
theorem C6_forget_absent (c : ObjectContainer) (k : String) (h : has c k = false) :
    forget c k = c := by
  unfold forget
  rw [h]
  rfl

theorem C6_witness :
    has (mkObjectContainer none none) ("missing") = false ∧
    forget (mkObjectContainer none none) ("missing") = mkObjectContainer none none :=
  ⟨by decide, C6_forget_absent (mkObjectContainer none none) ("missing") (by decide)⟩

/-- C7: on a missing key no operation fails: `get(k)` returns `null`,
`get(k, d)` returns `d` for every `d`, `has(k)` is `false` and `forget(k)`
returns the container unchanged.  Every modelled operation is a total
function, so absence is only ever signalled by these return values. -/
theorem C7_missing_key_totality (c : ObjectContainer) (k : String)
    (h : has c k = false) :
    getDefault c k = .null ∧ (∀ d : JsValue, get c k d = d) ∧
    has c k = false ∧ forget c k = c := by
  have hget : objGet c.data (convertKey c k) = .undefined := (has_eq_false_iff c k).1 h
  have hgetd : ∀ d : JsValue, get c k d = d := by
    intro d
    show nullish (objGet c.data (convertKey c k)) d = d
    rw [hget]
    rfl
  refine ⟨hgetd .null, hgetd, h, ?_⟩
  unfold forget
  rw [h]
  rfl

theorem C7_witness :
    has (mkObjectContainer none none) ("missing") = false ∧
    getDefault (mkObjectContainer none none) ("missing") = .null ∧
    get (mkObjectContainer none none) ("missing") (.num 7) = .num 7 :=
  ⟨by decide,
    (C7_missing_key_totality (mkObjectContainer none none) ("missing") (by decide)).1,
    (C7_missing_key_totality (mkObjectContainer none none) ("missing") (by decide)).2.1 (.num 7)⟩

/-- C9: storing `undefined` under a key leaves the key reported absent:
`has` tests the stored value against `undefined`, and the stored value of
`put(k, undefined)` is `undefined`. -/
theorem C9_put_undefined_absent (c : ObjectContainer) (k : String) :
    has (put c k .undefined) k = false := by
  rw [has_eq_false_iff, put_data, convertKey_put, convertValue_undefined, objGet_objSet_self]

/-- C10: a stored `null` value makes `has` answer `true`, yet `get` with any
default returns the default, exactly as for an absent key. -/
theorem C10_stored_null (c : ObjectContainer) (k : String)
    (h : objGet c.data (convertKey c k) = .null) :
    has c k = true ∧ (∀ d : JsValue, get c k d = d) := by
  constructor
  · rw [has_eq_true_iff, h]
    simp
  · intro d
    show nullish (objGet c.data (convertKey c k)) d = d
    rw [h]
    rfl

theorem C10_witness :
    objGet (put (mkObjectContainer none none) ("a") .null).data
        (convertKey (put (mkObjectContainer none none) ("a") .null) ("a")) = .null ∧
    has (put (mkObjectContainer none none) ("a") .null) ("a") = true ∧
    get (put (mkObjectContainer none none) ("a") .null) ("a") (.num 7) = .num 7 :=
  ⟨by decide,
    (C10_stored_null (put (mkObjectContainer none none) ("a") .null) ("a") (by decide)).1,
    (C10_stored_null (put (mkObjectContainer none none) ("a") .null) ("a") (by decide)).2 (.num 7)⟩

/-- C1 as stated is false: `populate` copies keys verbatim, so a
lowercase-keys container that is populated with the mixed-case key `A`
ends up holding the non-lowercase key `A`. -/
theorem C1_counterexample :
    ¬ KeysLC
      (populate
        (mkObjectContainer none
          (some { convertAllKeysToLowerCase := true, convertAllValuesToLowerCase := false }))
        [(("A"), .num 1)]).data := by
  decide

/-- C1 (amended): with `lowercaseKeys=true`, construction establishes the
all-keys-lowercase invariant and `put`, `putIfNotExists`, `forget` and
`clear` preserve it; `populate` is the exception and is excluded. -/
theorem C1_lowercase_keys_invariant (c : ObjectContainer) (k : String) (v : JsValue)
    (d : Option JsObj) (cfg : ObjectContainerConfiguration)
    (hc : c.config.convertAllKeysToLowerCase = true)
    (hcfg : cfg.convertAllKeysToLowerCase = true)
    (hinv : KeysLC c.data) :
    KeysLC (mkObjectContainer d (some cfg)).data ∧
    KeysLC (put c k v).data ∧
    KeysLC (putIfNotExists c k v).2.data ∧
    KeysLC (forget c k).data ∧
    KeysLC (clear c).data := by
  refine ⟨?_, ?_, ?_, ?_, ?_⟩
  · unfold mkObjectContainer
    apply KeysLC_prepareData
    simp [normalizeConfig, hcfg]
  · show KeysLC (objSet c.data (convertKey c k) (convertValue c v))
    exact KeysLC_objSet _ _ _ hinv (convertKey_toLowerCase c k hc)
  · unfold putIfNotExists
    split
    · exact hinv
    · show KeysLC (objSet c.data (convertKey c (convertKey c k))
        (convertValue c (convertValue c v)))
      exact KeysLC_objSet _ _ _ hinv (convertKey_toLowerCase c _ hc)
  · unfold forget
    split
    · exact hinv
    · show KeysLC (objDelete c.data (convertKey c k))
      exact KeysLC_objDelete _ _ hinv
  · exact KeysLC_nil

theorem C1_witness :
    (mkObjectContainer (some [(("a"), .num 1)])
      (some { convertAllKeysToLowerCase := true,
              convertAllValuesToLowerCase := false })).config.convertAllKeysToLowerCase
      = true ∧
    KeysLC
      (mkObjectContainer (some [(("a"), .num 1)])
        (some { convertAllKeysToLowerCase := true,
                convertAllValuesToLowerCase := false })).data ∧
    KeysLC
      (put
        (mkObjectContainer (some [(("a"), .num 1)])
          (some { convertAllKeysToLowerCase := true,
                  convertAllValuesToLowerCase := false }))
        ("NeW") (.num 2)).data :=
  ⟨by decide, by decide,
    (C1_lowercase_keys_invariant
      (mkObjectContainer (some [(("a"), .num 1)])
        (some { convertAllKeysToLowerCase := true, convertAllValuesToLowerCase := false }))
      ("NeW") (.num 2) none
      { convertAllKeysToLowerCase := true, convertAllValuesToLowerCase := false }
      (by decide) (by decide) (by decide)).2.1⟩

/-- The mapping that claim C2 says `items()` returns after `populate(m)`:
`m` with its keys lowercased when `lowercaseKeys` is enabled and its string
values lowercased when `lowercaseValues` is enabled.  This definition
follows the claim's words, for comparison with the code's behavior. -/
def specNormalizedMap (cfg : ObjectContainerConfiguration) (m : JsObj) : JsObj :=
  m.map (fun p =>
    (if cfg.convertAllKeysToLowerCase then toLowerCase p.1 else p.1,
     if cfg.convertAllValuesToLowerCase then lowerStr p.2 else p.2))

/-- C2 as stated is false: with `lowercaseKeys=true`, `populate({A:1})`
stores the key `A` verbatim, so `items()` differs from the
normalized mapping `{a:1}` the claim expects. -/
theorem C2_counterexample :
    items
        (populate
          (mkObjectContainer none
            (some { convertAllKeysToLowerCase := true, convertAllValuesToLowerCase := false }))
          [(("A"), .num 1)]) ≠
      specNormalizedMap
        (mkObjectContainer none
          (some { convertAllKeysToLowerCase := true, convertAllValuesToLowerCase := false })).config
        [(("A"), .num 1)] := by
  decide

/-- C2 (amended): `populate` applies no normalization at all; for every
container and every mapping `m` (without duplicate keys), `populate(m)`
followed by `items()` returns exactly `m`, whatever the flags. -/
theorem C2_populate_items_verbatim (c : ObjectContainer) (m : JsObj)
    (h : (m.map Prod.fst).Nodup) : items (populate c m) = m := by
  show m.foldl (fun d p => objSet d p.1 p.2) [] = m
  have hres := foldl_objSet_eq_append m [] (by intro p _ q hq; cases hq) h
  simpa using hres

theorem C2_witness :
    (([(("A"), JsValue.num 1), (("b"), JsValue.num 2)].map Prod.fst).Nodup ∧
      items
        (populate
          (mkObjectContainer none
            (some { convertAllKeysToLowerCase := true, convertAllValuesToLowerCase := true }))
          [(("A"), JsValue.num 1), (("b"), JsValue.num 2)]) =
        [(("A"), JsValue.num 1), (("b"), JsValue.num 2)]) :=
  ⟨by decide,
    C2_populate_items_verbatim
      (mkObjectContainer none
        (some { convertAllKeysToLowerCase := true, convertAllValuesToLowerCase := true }))
      [(("A"), JsValue.num 1), (("b"), JsValue.num 2)] (by decide)⟩

/-- C5 as stated is false when the first value is `undefined`: storing
`undefined` leaves the key absent, so the second `putIfNotExists` also
returns `true` instead of the claimed `false`. -/
theorem C5_counterexample :
    has (mkObjectContainer none none) ("a") = false ∧
    JsValue.undefined ≠ JsValue.num 1 ∧
    (putIfNotExists (mkObjectContainer none none) ("a") .undefined).1 = true ∧
    (putIfNotExists (putIfNotExists (mkObjectContainer none none) ("a") .undefined).2
        ("a") (.num 1)).1 = true := by
  decide

/-- C5 (amended): provided the first value is not `undefined`, the claim
holds: on an absent key the first `putIfNotExists` stores the normalized
value under the normalized key (it equals a plain `put`) and returns
`true`; a second `putIfNotExists` with any other value returns `false`,
leaves the state unchanged, and `get` returns the normalized first value. -/
theorem C5_putIfNotExists (c : ObjectContainer) (k : String) (v1 v2 : JsValue)
    (h0 : has c k = false) (h1 : v1 ≠ .undefined) (_h2 : v1 ≠ v2) :
    (putIfNotExists c k v1).1 = true ∧
    (putIfNotExists c k v1).2 = put c k v1 ∧
    (putIfNotExists (putIfNotExists c k v1).2 k v2).1 = false ∧
    (putIfNotExists (putIfNotExists c k v1).2 k v2).2 = (putIfNotExists c k v1).2 ∧
    getDefault (putIfNotExists (putIfNotExists c k v1).2 k v2).2 k = convertValue c v1 := by
  have hA : putIfNotExists c k v1 = (true, put c k v1) := by
    unfold putIfNotExists
    rw [h0]
    simp [put_convert_twice]
  have hhas : has (put c k v1) k = true := by
    rw [has_eq_true_iff, put_data, convertKey_put, objGet_objSet_self]
    exact convertValue_ne_undefined c v1 h1
  have hB : putIfNotExists (put c k v1) k v2 = (false, put c k v1) := by
    unfold putIfNotExists
    rw [hhas]
    simp
  have hget : getDefault (put c k v1) k = convertValue c v1 := by
    unfold getDefault
    rw [get_put_self, objGet_objSet_self]
    exact nullish_of_ne_undefined _ (convertValue_ne_undefined c v1 h1)
  refine ⟨by rw [hA], by rw [hA], ?_, ?_, ?_⟩
  · rw [hA]
    show (putIfNotExists (put c k v1) k v2).1 = false
    rw [hB]
  · rw [hA]
    show (putIfNotExists (put c k v1) k v2).2 = put c k v1
    rw [hB]
  · rw [hA]
    show getDefault (putIfNotExists (put c k v1) k v2).2 k = convertValue c v1
    rw [hB]
    exact hget

theorem C5_witness :
    has (mkObjectContainer none none) ("a") = false ∧
    JsValue.num 1 ≠ JsValue.undefined ∧
    JsValue.num 1 ≠ JsValue.num 2 ∧
    (putIfNotExists (mkObjectContainer none none) ("a") (.num 1)).1 = true ∧
    (putIfNotExists (putIfNotExists (mkObjectContainer none none) ("a") (.num 1)).2
        ("a") (.num 2)).1 = false ∧
    getDefault
        (putIfNotExists (putIfNotExists (mkObjectContainer none none) ("a") (.num 1)).2
          ("a") (.num 2)).2 ("a") =
      convertValue (mkObjectContainer none none) (.num 1) :=
  ⟨by decide, by decide, by decide,
    (C5_putIfNotExists (mkObjectContainer none none) ("a") (.num 1) (.num 2)
      (by decide) (by decide) (by decide)).1,
    (C5_putIfNotExists (mkObjectContainer none none) ("a") (.num 1) (.num 2)
      (by decide) (by decide) (by decide)).2.2.1,
    (C5_putIfNotExists (mkObjectContainer none none) ("a") (.num 1) (.num 2)
      (by decide) (by decide) (by decide)).2.2.2.2⟩

/-- C8: constructing with no configuration yields a container equal (as a
value, hence with identical behavior under every operation) to one
constructed with both flags explicitly `false`; and no operation ever
changes `config`. -/
theorem C8_default_config (d : Option JsObj) (c : ObjectContainer) (k : String)
    (v : JsValue) (m : JsObj) :
    mkObjectContainer d none =
      mkObjectContainer d
        (some { convertAllKeysToLowerCase := false, convertAllValuesToLowerCase := false }) ∧
    (put c k v).config = c.config ∧
    (putIfNotExists c k v).2.config = c.config ∧
    (forget c k).config = c.config ∧
    (remove c k).config = c.config ∧
    (clear c).config = c.config ∧
    (populate c m).config = c.config :=
  ⟨rfl, put_config c k v, putIfNotExists_config c k v, forget_config c k,
    forget_config c k, clear_config c, populate_config c m⟩

end ObjContainer
